import Mathlib

/-!
Shallow embedding of the t-shirt cannon simulator core (`app.py`).

Numbers are modelled as exact rationals.  The transcendental library
functions the source calls (`math.sqrt`, `math.cos`, `math.sin`, `math.pi`)
are abstracted into an interpretation record `Interp`; theorems quantify
over the interpretation, assuming only the properties they need (such as
`sq 0 = 0`, which every faithful square root satisfies).

Python runtime errors are modelled by `Option`: `none` stands for an
uncaught exception (`ZeroDivisionError` on division by zero, `ValueError`
on `math.sqrt` of a negative number).  The unbounded `while y >= 0` loops
of the source are modelled with an explicit fuel parameter; `none` is also
returned when fuel runs out, so `some` results are exactly the runs the
concrete program completes.
-/

namespace TCannon

/-- Interpretation of the transcendental primitives used by the source. -/
structure Interp where
  sq : ℚ → ℚ
  cos : ℚ → ℚ
  sin : ℚ → ℚ
  piV : ℚ

/-- Model of `math.radians(deg) = deg * pi / 180`. -/
def radians (I : Interp) (deg : ℚ) : ℚ := deg * I.piV / 180

-- Constants of app.py, lines 7-23.
def air_density : ℚ := 1.225
def Cd : ℚ := 0.5
def g : ℚ := 9.81
def barrel_diameter_in : ℚ := 2.75
def barrel_length_in : ℚ := 24
def barrel_diameter_m : ℚ := barrel_diameter_in * 0.0254
def barrel_length_m : ℚ := barrel_length_in * 0.0254
def barrel_area (I : Interp) : ℚ := I.piV * (barrel_diameter_m / 2) ^ 2

def tshirt_mass : ℚ := 0.170
def tshirt_diam : ℚ := 0.07
def stress_mass : ℚ := 0.040
def stress_diam : ℚ := 0.07

def TARGET_RANGE_FT : ℚ := 200
def TARGET_RANGE_M : ℚ := TARGET_RANGE_FT * 0.3048

/-- Model of `muzzle_velocity_ideal` (app.py lines 26-29).  Here `none` models the
`ZeroDivisionError` raised when `mass = 0` and the `math domain error`
raised by `math.sqrt` on a negative argument. -/
def muzzle_velocity_ideal (I : Interp) (mass pressure_psi : ℚ) : Option ℚ :=
  let pressure_pa := pressure_psi * 6894.76
  let work := pressure_pa * barrel_area I * barrel_length_m
  if mass = 0 then none
  else if (2 * work) / mass < 0 then none
  else some (I.sq ((2 * work) / mass))

/-- Integration state: position and velocity (app.py loop variables). -/
structure State where
  vx : ℚ
  vy : ℚ
  x : ℚ
  y : ℚ
  deriving DecidableEq, Repr

/-- Fixed integration time step `dt = 0.01`. -/
def dt : ℚ := 0.01

/-- Cross-sectional area `A = pi * (diameter / 2) ** 2`, computed identically at the top of all
three integrator entry points. -/
def areaOf (I : Interp) (diameter : ℚ) : ℚ := I.piV * (diameter / 2) ^ 2

/-- Drag constant `k = 0.5 * air_density * Cd * A`. -/
def kOf (I : Interp) (diameter : ℚ) : ℚ := 0.5 * air_density * Cd * areaOf I diameter

/-- Initial state: `vx, vy = v0*cos(angle), v0*sin(angle)`, `x = y = 0`. -/
def initState (I : Interp) (v0 angle_deg : ℚ) : State :=
  let angle := radians I angle_deg
  { vx := v0 * I.cos angle, vy := v0 * I.sin angle, x := 0, y := 0 }

/-- One forward-Euler step, the shared loop body of `simulate_range`,
`simulate_trajectory` and `speed_at_distance` (e.g. app.py lines 39-46).
`none` models the `ZeroDivisionError` of `drag / mass` or `vx / speed`. -/
def stepState (I : Interp) (k mass : ℚ) (s : State) : Option State :=
  let speed := I.sq (s.vx ^ 2 + s.vy ^ 2)
  if mass = 0 then none
  else if speed = 0 then none
  else
    let drag := k * speed ^ 2
    let ax := -(drag / mass) * (s.vx / speed)
    let ay := -(drag / mass) * (s.vy / speed) - g
    let vx2 := s.vx + ax * dt
    let vy2 := s.vy + ay * dt
    some { vx := vx2, vy := vy2, x := s.x + vx2 * dt, y := s.y + vy2 * dt }

/-- The `while y >= 0` loop of `simulate_range`: on exit returns `x`. -/
def runRange (I : Interp) (k mass : ℚ) : ℕ → State → Option ℚ
  | 0, _ => none
  | n + 1, s =>
    if 0 ≤ s.y then (stepState I k mass s).bind (runRange I k mass n)
    else some s.x

/-- Model of `simulate_range` (app.py lines 31-47). -/
def simulate_range (I : Interp) (mass diameter v0 angle_deg : ℚ) (fuel : ℕ) : Option ℚ :=
  runRange I (kOf I diameter) mass fuel (initState I v0 angle_deg)

/-- The `while y >= 0` loop of `simulate_trajectory`: records the pre-step
`(x, y)` on each iteration, returns the recorded lists on exit. -/
def runTraj (I : Interp) (k mass : ℚ) : ℕ → State → Option (List ℚ × List ℚ)
  | 0, _ => none
  | n + 1, s =>
    if 0 ≤ s.y then
      (stepState I k mass s).bind fun s2 =>
        (runTraj I k mass n s2).map fun p => (s.x :: p.1, s.y :: p.2)
    else some ([], [])

/-- Model of `simulate_trajectory` (app.py lines 49-68). -/
def simulate_trajectory (I : Interp) (mass diameter v0 angle_deg : ℚ) (fuel : ℕ) :
    Option (List ℚ × List ℚ) :=
  runTraj I (kOf I diameter) mass fuel (initState I v0 angle_deg)

/-- The `while y >= 0` loop of `speed_at_distance`: if the pre-step `x`
has reached the target, returns the pre-step speed; on ground impact
returns `0.0`.  (The source computes `speed` just before the `x >= target`
test; since `sqrt(vx**2 + vy**2)` cannot fail, hoisting the test keeps the
semantics.) -/
def runSpeed (I : Interp) (k mass target : ℚ) : ℕ → State → Option ℚ
  | 0, _ => none
  | n + 1, s =>
    if 0 ≤ s.y then
      if target ≤ s.x then some (I.sq (s.vx ^ 2 + s.vy ^ 2))
      else (stepState I k mass s).bind (runSpeed I k mass target n)
    else some 0

/-- Model of `speed_at_distance` (app.py lines 70-88). -/
def speed_at_distance (I : Interp) (mass diameter v0 angle_deg target_dist : ℚ) (fuel : ℕ) :
    Option ℚ :=
  runSpeed I (kOf I diameter) mass target_dist fuel (initState I v0 angle_deg)

/-- Calibration input `ideal_v_tshirt = muzzle_velocity_ideal(0.170, 100)` (app.py line 91). -/
def ideal_v_tshirt (I : Interp) : Option ℚ := muzzle_velocity_ideal I tshirt_mass 100

/-- One iteration of the calibration loop (app.py lines 94-98). -/
def calibStep (I : Interp) (innerFuel : ℕ) (vI : ℚ) (lh : ℚ × ℚ) : Option (ℚ × ℚ) :=
  let mid := (lh.1 + lh.2) / 2
  (simulate_range I tshirt_mass tshirt_diam (vI * mid) 45 innerFuel).map fun r =>
    if r > TARGET_RANGE_M then (lh.1, mid) else (mid, lh.2)

/-- The `for _ in range(100)` calibration loop, iterated `n` times. -/
def calibLoop (I : Interp) (innerFuel : ℕ) (vI : ℚ) : ℕ → ℚ × ℚ → Option (ℚ × ℚ)
  | 0, lh => some lh
  | n + 1, lh => (calibStep I innerFuel vI lh).bind (calibLoop I innerFuel vI n)

/-- Model of `friction_factor_tshirt` (app.py lines 92-99): 100 bisection
iterations from bounds `(0.01, 1.0)`, returning the final midpoint. -/
def friction_factor_tshirt (I : Interp) (innerFuel : ℕ) : Option ℚ :=
  (ideal_v_tshirt I).bind fun vI =>
    (calibLoop I innerFuel vI 100 (0.01, 1)).map fun lh => (lh.1 + lh.2) / 2

/-- Model of `friction_factor_stress = friction_factor_tshirt * 0.5` (app.py line 102). -/
def friction_factor_stress (I : Interp) (innerFuel : ℕ) : Option ℚ :=
  (friction_factor_tshirt I innerFuel).map fun f => f * 0.5

/-- Model of `v_stress = muzzle_velocity_ideal(0.040, psi) * friction_factor_stress`
(app.py line 117). -/
def v_stress (I : Interp) (innerFuel : ℕ) (psi : ℚ) : Option ℚ :=
  (muzzle_velocity_ideal I stress_mass psi).bind fun v =>
    (friction_factor_stress I innerFuel).map fun f => v * f

/-- Ghost run: the list of pre-step states visited by the shared loop,
together with the state in which the loop exits (`y < 0`). -/
def runStates (I : Interp) (k mass : ℚ) : ℕ → State → Option (List State × State)
  | 0, _ => none
  | n + 1, s =>
    if 0 ≤ s.y then
      (stepState I k mass s).bind fun s2 =>
        (runStates I k mass n s2).map fun p => (s :: p.1, p.2)
    else some ([], s)

/-- A concrete executable interpretation used to evaluate the model at
specific inputs.  `sqrtApx` agrees with the real square root at the
arguments the concrete runs below actually evaluate (0 and 1), and
`cos`/`sin` are the exact values at angle 0 radians. -/
def sqrtApx (q : ℚ) : ℚ := if q < 1 then q else (1 + q) / 2

def interp0 : Interp :=
  { sq := sqrtApx, cos := fun _ => 1, sin := fun _ => 0, piV := 3.14159 }

/-- A degenerate but legitimate interpretation in which every integration
run terminates after one step: `sq` is constantly 1, the launch direction
is straight down, and `piV = 0` makes the drag constant vanish. -/
def interpW : Interp :=
  { sq := fun _ => 1, cos := fun _ => 0, sin := fun _ => -1, piV := 0 }

/-! ### Structural lemmas about the shared stepping loop -/

theorem stepState_proj {I : Interp} {k mass : ℚ} {s s2 : State}
    (h : stepState I k mass s = some s2) :
    s2.x = s.x + s2.vx * dt ∧ s2.y = s.y + s2.vy * dt := by
  unfold stepState at h
  by_cases hm : mass = 0
  · simp [hm] at h
  · by_cases hs : I.sq (s.vx ^ 2 + s.vy ^ 2) = 0
    · simp [hm, hs] at h
    · simp only [hm, hs, if_false] at h
      rw [Option.some_inj] at h
      subst h
      exact ⟨rfl, rfl⟩

theorem runRange_eq_runStates (I : Interp) (k mass : ℚ) :
    ∀ (n : ℕ) (s : State),
      runRange I k mass n s = (runStates I k mass n s).map (fun p => p.2.x) := by
  intro n
  induction n with
  | zero => intro s; rfl
  | succ n ih =>
    intro s
    simp only [runRange, runStates]
    by_cases hy : 0 ≤ s.y
    · rw [if_pos hy, if_pos hy]
      cases hstep : stepState I k mass s with
      | none => rfl
      | some s2 =>
        simp only [Option.some_bind, ih s2]
        cases hrs : runStates I k mass n s2 with
        | none => rfl
        | some p => rfl
    · rw [if_neg hy, if_neg hy]; rfl

theorem runTraj_eq_runStates (I : Interp) (k mass : ℚ) :
    ∀ (n : ℕ) (s : State),
      runTraj I k mass n s =
        (runStates I k mass n s).map (fun p => (p.1.map State.x, p.1.map State.y)) := by
  intro n
  induction n with
  | zero => intro s; rfl
  | succ n ih =>
    intro s
    simp only [runTraj, runStates]
    by_cases hy : 0 ≤ s.y
    · rw [if_pos hy, if_pos hy]
      cases hstep : stepState I k mass s with
      | none => rfl
      | some s2 =>
        simp only [Option.some_bind, ih s2]
        cases hrs : runStates I k mass n s2 with
        | none => rfl
        | some p => rfl
    · rw [if_neg hy, if_neg hy]; rfl

/-- Declarative reading of `speed_at_distance`: the speed of the first
visited state whose `x` has reached the target, and `0` when no visited
state reaches it. -/
def speedResult (I : Interp) (target : ℚ) (l : List State) : ℚ :=
  match l.find? (fun st => decide (target ≤ st.x)) with
  | none => 0
  | some st => I.sq (st.vx ^ 2 + st.vy ^ 2)

theorem runSpeed_eq_runStates (I : Interp) (k mass target : ℚ) :
    ∀ (n : ℕ) (s : State) (l : List State) (e : State),
      runStates I k mass n s = some (l, e) →
      runSpeed I k mass target n s = some (speedResult I target l) := by
  intro n
  induction n with
  | zero => intro s l e h; simp [runStates] at h
  | succ n ih =>
    intro s l e h
    simp only [runStates] at h
    simp only [runSpeed]
    by_cases hy : 0 ≤ s.y
    · rw [if_pos hy] at h ⊢
      cases hstep : stepState I k mass s with
      | none => rw [hstep] at h; simp at h
      | some s2 =>
        rw [hstep] at h
        simp only [Option.some_bind] at h ⊢
        cases hrs : runStates I k mass n s2 with
        | none => rw [hrs] at h; simp at h
        | some p =>
          obtain ⟨l2, e2⟩ := p
          rw [hrs] at h
          simp only [Option.map_some'] at h
          rw [Option.some_inj] at h
          injection h with hl he
          subst hl he
          by_cases hx : target ≤ s.x
          · rw [if_pos hx]
            simp [speedResult, List.find?, hx]
          · rw [if_neg hx]
            rw [ih s2 l2 e2 hrs]
            simp [speedResult, List.find?, hx]
    · rw [if_neg hy] at h ⊢
      rw [Option.some_inj] at h
      injection h with hl he
      subst hl he
      simp [speedResult]

/-- Invariants of a completed run: every visited state has `y ≥ 0`,
consecutive visited states are related by `stepState`, the first visited
state is the initial one, and the exit state is one step past the last
visited state (or the initial state when nothing was visited) with
`y < 0`. -/
theorem runStates_spec (I : Interp) (k mass : ℚ) :
    ∀ (n : ℕ) (s : State) (l : List State) (e : State),
      runStates I k mass n s = some (l, e) →
      (∀ st ∈ l, 0 ≤ st.y) ∧
      List.Chain' (fun a b => stepState I k mass a = some b) l ∧
      (∀ hd tl, l = hd :: tl → hd = s) ∧
      (l = [] → e = s) ∧
      (∀ sl, l.getLast? = some sl → stepState I k mass sl = some e) ∧
      e.y < 0 := by
  intro n
  induction n with
  | zero => intro s l e h; simp [runStates] at h
  | succ n ih =>
    intro s l e h
    simp only [runStates] at h
    by_cases hy : 0 ≤ s.y
    · rw [if_pos hy] at h
      cases hstep : stepState I k mass s with
      | none => rw [hstep] at h; simp at h
      | some s2 =>
        rw [hstep] at h
        simp only [Option.some_bind] at h
        cases hrs : runStates I k mass n s2 with
        | none => rw [hrs] at h; simp at h
        | some p =>
          obtain ⟨l2, e2⟩ := p
          rw [hrs] at h
          simp only [Option.map_some'] at h
          rw [Option.some_inj] at h
          injection h with hl he
          subst hl he
          obtain ⟨hy2, hch, hhd, hnil, hlast, hey⟩ := ih s2 l2 e2 hrs
          refine ⟨?_, ?_, ?_, ?_, ?_, hey⟩
          · intro st hst
            rcases List.mem_cons.mp hst with h1 | h1
            · exact h1 ▸ hy
            · exact hy2 st h1
          · rw [List.chain'_cons']
            refine ⟨?_, hch⟩
            intro b hb
            cases hp : l2 with
            | nil => rw [hp] at hb; simp at hb
            | cons hd tl =>
              rw [hp] at hb
              simp only [List.head?_cons, Option.mem_def, Option.some_inj] at hb
              rw [← hb, hhd hd tl hp, hstep]
          · intro hd tl hcons
            injection hcons with h1 h2
            exact h1.symm
          · intro habs; exact absurd habs (List.cons_ne_nil _ _)
          · intro sl hsl
            cases hp : l2 with
            | nil =>
              subst hp
              simp only [List.getLast?_singleton, Option.some_inj] at hsl
              rw [← hsl, hstep, hnil rfl]
            | cons hd tl =>
              apply hlast
              rw [hp] at hsl ⊢
              rwa [List.getLast?_cons_cons] at hsl
    · rw [if_neg hy] at h
      rw [Option.some_inj] at h
      injection h with hl he
      subst hl he
      refine ⟨by simp, by simp, by simp, fun _ => rfl, by simp, lt_of_not_le hy⟩

/-! ### Claim theorems -/

theorem stepState_of_zero_velocity (I : Interp) (k mass : ℚ) (hsq : I.sq 0 = 0) :
    stepState I k mass { vx := 0, vy := 0, x := 0, y := 0 } = none := by
  unfold stepState
  norm_num [hsq]

/-- C1: the code does NOT implement the claimed `v0 = 0` guard.  With
`v0 = 0` the initial state has `vx = vy = 0` and `y = 0`, so the
`while y >= 0` loop IS entered, `speed = sqrt(0) = 0`, and the step
divides by the zero speed: all three entry points raise
`ZeroDivisionError` (modelled by `none`) instead of returning
distance 0 / a single-point trajectory / speed 0.  (`speed_at_distance`
raises whenever the target distance is positive.) -/
theorem v0_zero_raises_divzero (I : Interp) (mass diam angle target : ℚ) (fuel : ℕ)
    (hsq : I.sq 0 = 0) (hm : 0 < mass) (hd : 0 < diam)
    (ha0 : 0 ≤ angle) (ha1 : angle < 90) (ht : 0 < target) :
    simulate_range I mass diam 0 angle (fuel + 1) = none ∧
    simulate_trajectory I mass diam 0 angle (fuel + 1) = none ∧
    speed_at_distance I mass diam 0 angle target (fuel + 1) = none := by
  have hstep := stepState_of_zero_velocity I (kOf I diam) mass hsq
  refine ⟨?_, ?_, ?_⟩
  · simp [simulate_range, initState, runRange, hstep]
  · simp [simulate_trajectory, initState, runTraj, hstep]
  · simp [speed_at_distance, initState, runSpeed, hstep, not_le.mpr ht]

theorem v0_zero_raises_divzero_witness :
    simulate_range interp0 tshirt_mass tshirt_diam 0 45 1000 = none ∧
    simulate_trajectory interp0 tshirt_mass tshirt_diam 0 45 1000 = none ∧
    speed_at_distance interp0 tshirt_mass tshirt_diam 0 45 (381/25) 1000 = none :=
  v0_zero_raises_divzero interp0 tshirt_mass tshirt_diam 45 (381/25) 999
    (by norm_num [interp0, sqrtApx]) (by norm_num [tshirt_mass])
    (by norm_num [tshirt_diam]) (by norm_num) (by norm_num) (by norm_num)

/-- C4: `muzzle_velocity_ideal(mass, pressure)` with `mass > 0` and
`pressure ≥ 0` succeeds and returns
`sqrt(2 * (pressure * 6894.76) * barrel_area * barrel_length / mass)`;
in particular `pressure = 0` yields velocity 0. -/
theorem muzzle_velocity_formula (I : Interp) (mass pressure : ℚ)
    (hsq : I.sq 0 = 0) (hpi : 0 ≤ I.piV) (hm : 0 < mass) (hp : 0 ≤ pressure) :
    muzzle_velocity_ideal I mass pressure =
      some (I.sq (2 * (pressure * 6894.76) * barrel_area I * barrel_length_m / mass)) ∧
    (pressure = 0 → muzzle_velocity_ideal I mass pressure = some 0) := by
  have hA : 0 ≤ barrel_area I := by
    unfold barrel_area
    exact mul_nonneg hpi (pow_two_nonneg _)
  have hL : (0:ℚ) ≤ barrel_length_m := by
    norm_num [barrel_length_m, barrel_length_in]
  have harg : 0 ≤ 2 * (pressure * 6894.76 * barrel_area I * barrel_length_m) / mass := by
    apply div_nonneg _ (le_of_lt hm)
    have h1 : 0 ≤ pressure * 6894.76 := mul_nonneg hp (by norm_num)
    have h2 : 0 ≤ pressure * 6894.76 * barrel_area I := mul_nonneg h1 hA
    have h3 : 0 ≤ pressure * 6894.76 * barrel_area I * barrel_length_m := mul_nonneg h2 hL
    linarith
  constructor
  · simp only [muzzle_velocity_ideal]
    rw [if_neg (ne_of_gt hm), if_neg (not_lt.mpr harg)]
    rw [show 2 * (pressure * 6894.76 * barrel_area I * barrel_length_m) / mass
          = 2 * (pressure * 6894.76) * barrel_area I * barrel_length_m / mass from by ring]
  · intro h0
    subst h0
    simp only [muzzle_velocity_ideal]
    rw [if_neg (ne_of_gt hm)]
    norm_num [hsq]

theorem muzzle_velocity_formula_witness :
    muzzle_velocity_ideal interp0 1 100 =
      some (interp0.sq (2 * (100 * 6894.76) * barrel_area interp0 * barrel_length_m / 1)) ∧
    ((100:ℚ) = 0 → muzzle_velocity_ideal interp0 1 100 = some 0) :=
  muzzle_velocity_formula interp0 1 100
    (by norm_num [interp0, sqrtApx]) (by norm_num [interp0]) (by norm_num) (by norm_num)

/-- C7 counterexample: with `mass = -1` and `pressure = 0` the code does
NOT fail: the sqrt argument is `2*0/(-1) = 0`, so `muzzle_velocity_ideal`
returns 0 instead of raising a domain error, refuting "fails fast for
every mass ≤ 0 (for any pressure ≥ 0)". -/
theorem muzzle_velocity_neg_mass_zero_pressure :
    muzzle_velocity_ideal interp0 (-1) 0 = some 0 := by
  norm_num [muzzle_velocity_ideal, interp0, sqrtApx]

/-- C7 amended: `muzzle_velocity_ideal` fails with an error for
`mass = 0` (any pressure), and for `mass < 0` whenever `pressure > 0`;
the remaining case `mass < 0, pressure = 0` returns 0 instead. -/
theorem muzzle_velocity_rejects (I : Interp) (mass pressure : ℚ)
    (hpi : 0 < I.piV) (hm : mass ≤ 0) (hp : 0 ≤ pressure)
    (hcase : mass = 0 ∨ 0 < pressure) :
    muzzle_velocity_ideal I mass pressure = none := by
  by_cases hm0 : mass = 0
  · simp [muzzle_velocity_ideal, hm0]
  · have hmneg : mass < 0 := lt_of_le_of_ne hm hm0
    have hppos : 0 < pressure := by
      rcases hcase with h | h
      · exact absurd h hm0
      · exact h
    have hA : 0 < barrel_area I := by
      unfold barrel_area barrel_diameter_m barrel_diameter_in
      apply mul_pos hpi
      norm_num
    have hL : (0:ℚ) < barrel_length_m := by
      norm_num [barrel_length_m, barrel_length_in]
    have hwork : 0 < pressure * 6894.76 * barrel_area I * barrel_length_m := by
      have h1 : 0 < pressure * 6894.76 := mul_pos hppos (by norm_num)
      exact mul_pos (mul_pos h1 hA) hL
    have harg : 2 * (pressure * 6894.76 * barrel_area I * barrel_length_m) / mass < 0 :=
      div_neg_of_pos_of_neg (by linarith) hmneg
    simp only [muzzle_velocity_ideal]
    rw [if_neg hm0, if_pos harg]

theorem muzzle_velocity_rejects_witness :
    muzzle_velocity_ideal interp0 (-1) 1 = none :=
  muzzle_velocity_rejects interp0 (-1) 1
    (by norm_num [interp0]) (by norm_num) (by norm_num) (Or.inr (by norm_num))

theorem runStates_head (I : Interp) (k mass : ℚ) (n : ℕ) (s : State) (l : List State)
    (e : State) (hy : 0 ≤ s.y) (h : runStates I k mass n s = some (l, e)) :
    l.head? = some s := by
  cases n with
  | zero => simp [runStates] at h
  | succ n =>
    simp only [runStates, if_pos hy] at h
    cases hstep : stepState I k mass s with
    | none => rw [hstep] at h; simp at h
    | some s2 =>
      rw [hstep] at h
      simp only [Option.some_bind] at h
      cases hrs : runStates I k mass n s2 with
      | none => rw [hrs] at h; simp at h
      | some p =>
        rw [hrs] at h
        simp only [Option.map_some'] at h
        rw [Option.some_inj] at h
        injection h with hl he
        rw [← hl]
        rfl

/-- C2 counterexample: at mass 1, diameter 1, v0 = 1, angle 0° the loop
records exactly one sample (the origin) and exits on the next step, so the
last trajectory x is 0 while `simulate_range` returns the positive
post-step x. -/
theorem range_ne_last_traj_x :
    simulate_trajectory interp0 1 1 1 0 2 = some ([0], [0]) ∧
    simulate_range interp0 1 1 1 0 2 = some (6384606209 / 640000000000) ∧
    simulate_range interp0 1 1 1 0 2 ≠
      ((simulate_trajectory interp0 1 1 1 0 2).bind fun p => p.1.getLast?) := by
  refine ⟨?_, ?_, ?_⟩
  · norm_num [simulate_trajectory, runTraj, stepState, initState, kOf, areaOf, radians,
      interp0, sqrtApx, dt, air_density, Cd, g]
  · norm_num [simulate_range, runRange, stepState, initState, kOf, areaOf, radians,
      interp0, sqrtApx, dt, air_density, Cd, g]
  · norm_num [simulate_range, simulate_trajectory, runRange, runTraj, stepState, initState,
      kOf, areaOf, radians, interp0, sqrtApx, dt, air_density, Cd, g]

/-- C2 amended: both runs perform identical stepping, but `simulate_range`
returns the x of the loop-exit state, which lies one Euler step past the
last recorded trajectory sample: range = last trajectory x + vx_exit*dt,
not the last trajectory x itself. -/
theorem range_one_step_past_last_sample (I : Interp) (mass diam v0 angle : ℚ) (fuel : ℕ)
    (d : ℚ) (xs ys : List ℚ)
    (hm : 0 < mass) (hd : 0 < diam) (hv : 0 < v0) (ha0 : 0 ≤ angle) (ha1 : angle < 90)
    (hr : simulate_range I mass diam v0 angle fuel = some d)
    (ht : simulate_trajectory I mass diam v0 angle fuel = some (xs, ys)) :
    ∃ l e, runStates I (kOf I diam) mass fuel (initState I v0 angle) = some (l, e) ∧
      d = e.x ∧ xs = l.map State.x ∧
      ∀ sl, l.getLast? = some sl →
        stepState I (kOf I diam) mass sl = some e ∧ d = sl.x + e.vx * dt := by
  rw [simulate_range, runRange_eq_runStates] at hr
  rw [simulate_trajectory, runTraj_eq_runStates] at ht
  cases hrs : runStates I (kOf I diam) mass fuel (initState I v0 angle) with
  | none => rw [hrs] at hr; simp at hr
  | some p =>
    obtain ⟨l, e⟩ := p
    rw [hrs] at hr ht
    simp only [Option.map_some'] at hr ht
    rw [Option.some_inj] at hr ht
    injection ht with hxs hys
    refine ⟨l, e, rfl, hr.symm, hxs.symm, ?_⟩
    intro sl hsl
    have hspec := runStates_spec I (kOf I diam) mass fuel _ l e hrs
    have hstep := hspec.2.2.2.2.1 sl hsl
    exact ⟨hstep, hr.symm.trans (stepState_proj hstep).1⟩

theorem range_one_step_past_last_sample_witness :
    ∃ l e, runStates interp0 (kOf interp0 1) 1 2 (initState interp0 1 0) = some (l, e) ∧
      (6384606209 / 640000000000 : ℚ) = e.x ∧ [(0:ℚ)] = l.map State.x ∧
      ∀ sl, l.getLast? = some sl →
        stepState interp0 (kOf interp0 1) 1 sl = some e ∧
        (6384606209 / 640000000000 : ℚ) = sl.x + e.vx * dt :=
  range_one_step_past_last_sample interp0 1 1 1 0 2 (6384606209 / 640000000000) [0] [0]
    (by norm_num) (by norm_num) (by norm_num) (by norm_num) (by norm_num)
    (by norm_num [simulate_range, runRange, stepState, initState, kOf, areaOf, radians,
      interp0, sqrtApx, dt, air_density, Cd, g])
    (by norm_num [simulate_trajectory, runTraj, stepState, initState, kOf, areaOf, radians,
      interp0, sqrtApx, dt, air_density, Cd, g])

/-- C9: a completed trajectory starts at the origin (samples are recorded
before each update), every recorded y is non-negative (hence in particular
all but possibly the last), and x grows across consecutive samples
whenever the updated horizontal velocity is positive. -/
theorem trajectory_shape (I : Interp) (mass diam v0 angle : ℚ) (fuel : ℕ)
    (xs ys : List ℚ)
    (hm : 0 < mass) (hd : 0 < diam) (hv : 0 < v0) (ha0 : 0 ≤ angle) (ha1 : angle < 90)
    (ht : simulate_trajectory I mass diam v0 angle fuel = some (xs, ys)) :
    xs.head? = some 0 ∧ ys.head? = some 0 ∧ (∀ y0 ∈ ys, 0 ≤ y0) ∧
    ∃ l e, runStates I (kOf I diam) mass fuel (initState I v0 angle) = some (l, e) ∧
      xs = l.map State.x ∧
      List.Chain' (fun a b => 0 < b.vx → a.x < b.x) l := by
  rw [simulate_trajectory, runTraj_eq_runStates] at ht
  cases hrs : runStates I (kOf I diam) mass fuel (initState I v0 angle) with
  | none => rw [hrs] at ht; simp at ht
  | some p =>
    obtain ⟨l, e⟩ := p
    rw [hrs] at ht
    simp only [Option.map_some'] at ht
    rw [Option.some_inj] at ht
    injection ht with hxs hys
    have hhead := runStates_head I (kOf I diam) mass fuel _ l e (by rw [initState]) hrs
    obtain ⟨hy2, hch, hhd, hnil, hlast, hey⟩ := runStates_spec I (kOf I diam) mass fuel _ l e hrs
    refine ⟨?_, ?_, ?_, l, e, rfl, hxs.symm, ?_⟩
    · rw [← hxs, List.head?_map, hhead]
      simp [initState]
    · rw [← hys, List.head?_map, hhead]
      simp [initState]
    · intro y0 hy0
      rw [← hys] at hy0
      obtain ⟨st, hst, hst2⟩ := List.mem_map.mp hy0
      exact hst2 ▸ hy2 st hst
    · refine hch.imp ?_
      intro a b hab hvx
      have hx := (stepState_proj hab).1
      have : 0 < b.vx * dt := mul_pos hvx (by norm_num [dt])
      rw [hx]
      linarith

theorem trajectory_shape_witness :
    ([(0:ℚ)] : List ℚ).head? = some 0 ∧ ([(0:ℚ)] : List ℚ).head? = some 0 ∧
    (∀ y0 ∈ ([(0:ℚ)] : List ℚ), 0 ≤ y0) ∧
    ∃ l e, runStates interp0 (kOf interp0 1) 1 2 (initState interp0 1 0) = some (l, e) ∧
      [(0:ℚ)] = l.map State.x ∧
      List.Chain' (fun a b => 0 < b.vx → a.x < b.x) l :=
  trajectory_shape interp0 1 1 1 0 2 [0] [0]
    (by norm_num) (by norm_num) (by norm_num) (by norm_num) (by norm_num)
    (by norm_num [simulate_trajectory, runTraj, stepState, initState, kOf, areaOf, radians,
      interp0, sqrtApx, dt, air_density, Cd, g])

/-- C6: when the run to impact completes, `speed_at_distance` returns the
speed `sqrt(vx^2 + vy^2)` of the first visited (pre-step) state whose x
has reached the target, and the sentinel 0 when no visited state reaches
the target before impact. -/
theorem speed_at_distance_spec (I : Interp) (mass diam v0 angle target : ℚ) (fuel : ℕ)
    (l : List State) (e : State)
    (hm : 0 < mass) (hd : 0 < diam) (hv : 0 < v0) (ha0 : 0 ≤ angle) (ha1 : angle < 90)
    (hrun : runStates I (kOf I diam) mass fuel (initState I v0 angle) = some (l, e)) :
    speed_at_distance I mass diam v0 angle target fuel = some (speedResult I target l) ∧
    ((∀ st ∈ l, st.x < target) →
      speed_at_distance I mass diam v0 angle target fuel = some 0) := by
  have h1 := runSpeed_eq_runStates I (kOf I diam) mass target fuel _ l e hrun
  constructor
  · rw [speed_at_distance]
    exact h1
  · intro hall
    rw [speed_at_distance, h1]
    have hfind : l.find? (fun st => decide (target ≤ st.x)) = none := by
      rw [List.find?_eq_none]
      intro st hst
      simp [not_le.mpr (hall st hst)]
    rw [show speedResult I target l = 0 from by rw [speedResult, hfind]]

theorem speed_at_distance_spec_witness :
    speed_at_distance interpW 1 1 1 0 5 2 =
      some (speedResult interpW 5 [{ vx := 0, vy := -1, x := 0, y := 0 }]) ∧
    ((∀ st ∈ [({ vx := 0, vy := -1, x := 0, y := 0 } : State)], st.x < 5) →
      speed_at_distance interpW 1 1 1 0 5 2 = some 0) :=
  speed_at_distance_spec interpW 1 1 1 0 5 2
    [{ vx := 0, vy := -1, x := 0, y := 0 }]
    { vx := 0, vy := -10981/10000, x := 0, y := -10981/1000000 }
    (by norm_num) (by norm_num) (by norm_num) (by norm_num) (by norm_num)
    (by norm_num [runStates, stepState, initState, kOf, areaOf, radians,
      interpW, dt, air_density, Cd, g])

/-- Bisection search exactly as the claim describes it (spec-side
definition): mid = (low+high)/2, the simulated range at velocity
`vIdeal*mid` compared strictly against the target, `high := mid` on a
strict overshoot and `low := mid` otherwise. -/
def bisectionSpec (R : ℚ → ℚ) (target : ℚ) : ℕ → ℚ × ℚ → ℚ × ℚ
  | 0, lh => lh
  | n + 1, lh =>
    let mid := (lh.1 + lh.2) / 2
    if R mid > target then bisectionSpec R target n (lh.1, mid)
    else bisectionSpec R target n (mid, lh.2)

/-- The claim's friction factor: the midpoint of the bounds left after
exactly 100 bisection iterations from (0.01, 1); termination is by
iteration count only. -/
def frictionSpec (R : ℚ → ℚ) (target : ℚ) : ℚ :=
  let lh := bisectionSpec R target 100 (0.01, 1)
  (lh.1 + lh.2) / 2

theorem calibLoop_eq_bisectionSpec (I : Interp) (innerFuel : ℕ) (vI : ℚ) (R : ℚ → ℚ)
    (hR : ∀ m, 0.01 ≤ m → m ≤ 1 →
      simulate_range I tshirt_mass tshirt_diam (vI * m) 45 innerFuel = some (R m)) :
    ∀ (n : ℕ) (lo hi : ℚ), 0.01 ≤ lo → lo ≤ hi → hi ≤ 1 →
      calibLoop I innerFuel vI n (lo, hi) =
        some (bisectionSpec R TARGET_RANGE_M n (lo, hi)) := by
  intro n
  induction n with
  | zero => intro lo hi h1 h2 h3; rfl
  | succ n ih =>
    intro lo hi h1 h2 h3
    have hmid1 : (0.01 : ℚ) ≤ (lo + hi) / 2 := by linarith
    have hmid2 : (lo + hi) / 2 ≤ 1 := by linarith
    have hmlo : lo ≤ (lo + hi) / 2 := by linarith
    have hmhi : (lo + hi) / 2 ≤ hi := by linarith
    simp only [calibLoop, calibStep, bisectionSpec]
    rw [hR ((lo + hi) / 2) hmid1 hmid2]
    simp only [Option.map_some', Option.some_bind]
    by_cases hgt : R ((lo + hi) / 2) > TARGET_RANGE_M
    · rw [if_pos hgt, if_pos hgt]
      exact ih lo ((lo + hi) / 2) h1 hmlo hmid2
    · rw [if_neg hgt, if_neg hgt]
      exact ih ((lo + hi) / 2) hi hmid1 hmhi h3

/-- C3: `friction_factor_tshirt` is exactly the described bisection: 100
iterations from bounds (0.01, 1.0), each comparing the reference t-shirt
range at velocity `idealVelocity * mid` and 45° strictly against the
60.96 m target (`high := mid` on overshoot, else `low := mid`), returning
the midpoint of the final bounds; termination is by iteration count. -/
theorem friction_factor_follows_bisection (I : Interp) (innerFuel : ℕ) (vI : ℚ) (R : ℚ → ℚ)
    (hv : ideal_v_tshirt I = some vI)
    (hR : ∀ m, 0.01 ≤ m → m ≤ 1 →
      simulate_range I tshirt_mass tshirt_diam (vI * m) 45 innerFuel = some (R m)) :
    friction_factor_tshirt I innerFuel = some (frictionSpec R TARGET_RANGE_M) := by
  simp only [friction_factor_tshirt]
  rw [hv, Option.some_bind]
  rw [calibLoop_eq_bisectionSpec I innerFuel vI R hR 100 0.01 1 le_rfl (by norm_num) le_rfl]
  rfl

/-- Under `interpW` every single forward-Euler step succeeds with
`speed = 1`. -/
theorem stepState_interpW (k mass : ℚ) (hmass : ¬mass = 0) (s : State) :
    stepState interpW k mass s =
      some { vx := s.vx + -(k * 1 ^ 2 / mass) * (s.vx / 1) * dt,
             vy := s.vy + (-(k * 1 ^ 2 / mass) * (s.vy / 1) - g) * dt,
             x := s.x + (s.vx + -(k * 1 ^ 2 / mass) * (s.vx / 1) * dt) * dt,
             y := s.y + (s.vy + (-(k * 1 ^ 2 / mass) * (s.vy / 1) - g) * dt) * dt } := by
  unfold stepState
  rw [if_neg hmass]
  norm_num [interpW]

/-- Under `interpW` the reference t-shirt shot is launched straight down,
so it lands within one step and `simulate_range` returns 0 for every
multiplier in the bisection bracket. -/
theorem simulate_range_interpW (m : ℚ) (h1 : 0.01 ≤ m) (h2 : m ≤ 1) :
    simulate_range interpW tshirt_mass tshirt_diam (1 * m) 45 2 = some 0 := by
  have hmass : ¬tshirt_mass = 0 := by norm_num [tshirt_mass]
  unfold simulate_range
  rw [show initState interpW (1 * m) 45 = { vx := 0, vy := -m, x := 0, y := 0 } from by
    norm_num [initState, interpW, radians]]
  rw [show kOf interpW tshirt_diam = 0 from by norm_num [kOf, areaOf, interpW]]
  simp only [runRange]
  rw [if_pos (le_refl (0 : ℚ))]
  rw [stepState_interpW 0 tshirt_mass hmass]
  rw [Option.some_bind]
  simp only [runRange]
  rw [if_neg (by
    refine not_le.mpr ?_
    norm_num [g, dt, tshirt_mass]
    nlinarith)]
  norm_num [dt, tshirt_mass]

theorem friction_factor_follows_bisection_witness :
    friction_factor_tshirt interpW 2 = some (frictionSpec (fun m => 0) TARGET_RANGE_M) :=
  friction_factor_follows_bisection interpW 2 1 (fun m => 0)
    (by norm_num [ideal_v_tshirt, muzzle_velocity_ideal, interpW, barrel_area, tshirt_mass])
    (fun m hm1 hm2 => simulate_range_interpW m hm1 hm2)

/-- With the always-landing interpretation the bisection always raises the
lower bound, so the final factor has the closed form below. -/
theorem bisectionSpec_const_zero (n : ℕ) :
    ∀ lo : ℚ, bisectionSpec (fun m => 0) TARGET_RANGE_M n (lo, 1) =
      (1 - (1 - lo) / 2 ^ n, 1) := by
  induction n with
  | zero =>
    intro lo
    simp only [bisectionSpec, pow_zero]
    rw [Prod.mk.injEq]
    exact ⟨by ring, rfl⟩
  | succ n ih =>
    intro lo
    simp only [bisectionSpec]
    rw [if_neg (by norm_num [TARGET_RANGE_M, TARGET_RANGE_FT])]
    rw [ih ((lo + 1) / 2)]
    rw [Prod.mk.injEq]
    exact ⟨by ring, rfl⟩

theorem friction_factor_tshirt_interpW :
    friction_factor_tshirt interpW 2 = some (1 - 99 / (100 * 2 ^ 101)) := by
  simp only [friction_factor_tshirt]
  rw [show ideal_v_tshirt interpW = some 1 from by
    norm_num [ideal_v_tshirt, muzzle_velocity_ideal, interpW, barrel_area, tshirt_mass]]
  rw [Option.some_bind]
  rw [calibLoop_eq_bisectionSpec interpW 2 1 (fun m => 0)
    (fun m hm1 hm2 => simulate_range_interpW m hm1 hm2) 100 0.01 1 le_rfl (by norm_num) le_rfl]
  rw [bisectionSpec_const_zero 100 0.01]
  simp only [Option.map_some']
  norm_num

/-- C10: the stress-ball friction factor is not an input: it is exactly
0.5 times the calibrated t-shirt factor, and the stress-ball launch speed
is the stress-ball ideal muzzle velocity times that fixed product. -/
theorem stress_factor_half (I : Interp) (innerFuel : ℕ) (ff : ℚ)
    (hf : friction_factor_tshirt I innerFuel = some ff) :
    friction_factor_stress I innerFuel = some (0.5 * ff) ∧
    ∀ psi v, muzzle_velocity_ideal I stress_mass psi = some v →
      v_stress I innerFuel psi = some (v * (0.5 * ff)) := by
  have hs : friction_factor_stress I innerFuel = some (0.5 * ff) := by
    simp only [friction_factor_stress]
    rw [hf, Option.map_some', mul_comm]
  refine ⟨hs, ?_⟩
  intro psi v hv
  simp only [v_stress]
  rw [hv, Option.some_bind, hs, Option.map_some']

theorem stress_factor_half_witness :
    friction_factor_stress interpW 2 = some (0.5 * (1 - 99 / (100 * 2 ^ 101))) ∧
    ∀ psi v, muzzle_velocity_ideal interpW stress_mass psi = some v →
      v_stress interpW 2 psi = some (v * (0.5 * (1 - 99 / (100 * 2 ^ 101)))) :=
  stress_factor_half interpW 2 (1 - 99 / (100 * 2 ^ 101)) friction_factor_tshirt_interpW

end TCannon
